import Mathlib

/-!
Verification of the call-rate-limiter and retry subsystem of the
`krakenexapi` library (`src/krakenexapi/api.py`, `src/krakenexapi/exceptions.py`).

The numeric state of `_CallRateLimitInfo` is embedded over `PyFloat`, a value
domain with finite rationals, signed infinities and NaN mirroring the CPython
`float` semantics the source relies on (`float("inf")` ceilings, `max`,
comparisons where NaN is never `<`/`<=`/`>=`, and `x / 0.0` raising
`ZeroDivisionError` for every `x`).  Wall-clock instants (`time.time()` values)
are passed explicitly as rationals.

The request/retry layer (`RawKrakenExAPI` / `RawCallRateLimitedKrakenExAPI`)
is embedded as pure functions from a transport oracle (mapping the index of a
transport invocation to the decoded JSON response) to a result, an event trace
(rate-gate consultations, transport POSTs, sleeps, forced budget exceeds) and
the next transport index.  Python's dynamic dispatch is resolved the way it
resolves on a `RawCallRateLimitedKrakenExAPI` instance: `self._query_raw`
inside the inherited `query_public` / `query_private` bodies is the *overridden*
rate-gated `_query_raw`.
-/

/-- CPython `float` values as used by the source: finite rationals, the two
infinities and NaN. -/
inductive PyFloat where
  | nan : PyFloat
  | inf : PyFloat
  | ninf : PyFloat
  | fin (q : ℚ) : PyFloat
deriving DecidableEq, Repr

namespace PyFloat

/-- Python `x <= y` on floats: any comparison with NaN is false. -/
def pyLe : PyFloat → PyFloat → Bool
  | nan, _ => false
  | _, nan => false
  | ninf, _ => true
  | _, ninf => false
  | _, inf => true
  | inf, _ => false
  | fin a, fin b => decide (a ≤ b)

/-- Python `x < y` on floats: any comparison with NaN is false. -/
def pyLt : PyFloat → PyFloat → Bool
  | nan, _ => false
  | _, nan => false
  | ninf, ninf => false
  | ninf, _ => true
  | _, ninf => false
  | inf, _ => false
  | _, inf => true
  | fin a, fin b => decide (a < b)

/-- IEEE-754 addition restricted to the values the source manipulates. -/
def pyAdd : PyFloat → PyFloat → PyFloat
  | nan, _ => nan
  | _, nan => nan
  | inf, ninf => nan
  | ninf, inf => nan
  | inf, _ => inf
  | _, inf => inf
  | ninf, _ => ninf
  | _, ninf => ninf
  | fin a, fin b => fin (a + b)

/-- IEEE-754 negation. -/
def pyNeg : PyFloat → PyFloat
  | nan => nan
  | inf => ninf
  | ninf => inf
  | fin a => fin (-a)

/-- IEEE-754 subtraction. -/
def pySub (a b : PyFloat) : PyFloat := pyAdd a (pyNeg b)

/-- IEEE-754 multiplication; `inf * 0 = nan`. -/
def pyMul : PyFloat → PyFloat → PyFloat
  | nan, _ => nan
  | _, nan => nan
  | inf, inf => inf
  | inf, ninf => ninf
  | ninf, inf => ninf
  | ninf, ninf => inf
  | inf, fin b => if b = 0 then nan else if 0 < b then inf else ninf
  | fin a, inf => if a = 0 then nan else if 0 < a then inf else ninf
  | ninf, fin b => if b = 0 then nan else if 0 < b then ninf else inf
  | fin a, ninf => if a = 0 then nan else if 0 < a then ninf else inf
  | fin a, fin b => fin (a * b)

/-- Python `max(a, b)`: iterates left to right, replacing the accumulator only
when the next element is strictly greater, so `max(a, b) = b if b > a else a`
(in particular `max(0.0, nan) = 0.0`). -/
def pyMax (a b : PyFloat) : PyFloat := if pyLt a b then b else a

/-- Python float division.  `x / 0.0` raises `ZeroDivisionError` for every
numerator, NaN and the infinities included; otherwise IEEE-754 rules
(the single `fin 0` stands for both signed zeros). -/
def pyDiv : PyFloat → PyFloat → Except Unit PyFloat
  | x, fin b =>
    if b = 0 then .error ()
    else .ok (match x with
      | nan => nan
      | inf => if 0 < b then inf else ninf
      | ninf => if 0 < b then ninf else inf
      | fin a => fin (a / b))
  | nan, _ => .ok nan
  | _, nan => .ok nan
  | inf, inf => .ok nan
  | inf, ninf => .ok nan
  | ninf, inf => .ok nan
  | ninf, ninf => .ok nan
  | fin _, inf => .ok (fin 0)
  | fin _, ninf => .ok (fin 0)

end PyFloat

-- ----------------------------------------------------------------------------
-- `_CallRateLimitInfo` (api.py lines 271-316)

open PyFloat

/-- State of `_CallRateLimitInfo`: constructor parameters `_limit`, `_cost`,
`_decay` and the mutable pair `_counter` / `_last_time`.  `last_time` is a
wall-clock instant and is kept as a rational. -/
structure CallRateLimitInfo where
  limit : PyFloat
  cost : PyFloat
  decay : PyFloat
  counter : PyFloat
  last_time : ℚ
deriving DecidableEq, Repr

namespace CallRateLimitInfo

/-- `_CallRateLimitInfo.__init__`: `_counter = 0.0`, `_last_time = 0.0`. -/
def init (limit cost decay : PyFloat) : CallRateLimitInfo :=
  { limit := limit, cost := cost, decay := decay
    counter := .fin 0, last_time := 0 }

/-- `decay()` at wall-clock instant `now`:
`seconds_gone = now - _last_time`;
`_counter = max(0.0, _counter - _decay * seconds_gone)`; `_last_time = now`. -/
def decayAt (now : ℚ) (st : CallRateLimitInfo) : CallRateLimitInfo :=
  let seconds_gone : ℚ := now - st.last_time
  { st with
    counter := pyMax (.fin 0) (pySub st.counter (pyMul st.decay (.fin seconds_gone)))
    last_time := now }

/-- `time_to_call(cost)`: `remaining = _limit - (_counter + cost)`; returns
`0.0` when `remaining >= 0`, else `(-remaining) / _decay` — with Python's
`ZeroDivisionError` surfaced as `Except.error` when `_decay == 0`. -/
def timeToCall (st : CallRateLimitInfo) (cost : PyFloat) : Except Unit PyFloat :=
  let remaining := pySub st.limit (pyAdd st.counter cost)
  if pyLe (.fin 0) remaining then .ok (.fin 0)
  else pyDiv (pyNeg remaining) st.decay

/-- `can_call(cost)`: `cost = cost if cost is not None else self._cost`;
returns `_counter + cost <= _limit`. -/
def canCall (st : CallRateLimitInfo) (cost : Option PyFloat) : Bool :=
  let c := cost.getD st.cost
  pyLe (pyAdd st.counter c) st.limit

/-- `set_exceeded()` at instant `now`: `_counter = _limit + _decay * 3`;
`_last_time = now`. -/
def setExceededAt (now : ℚ) (st : CallRateLimitInfo) : CallRateLimitInfo :=
  { st with
    counter := pyAdd st.limit (pyMul st.decay (.fin 3))
    last_time := now }

/-- `check(cost)` at instant `now`: `decay()`, resolve the default cost, then
admit (add `cost` to `_counter`) iff `can_call(cost)`.  Returns the admit flag,
the new state, and the list of performed sleeps (always `[]`: `check` never
blocks). -/
def checkAt (now : ℚ) (st : CallRateLimitInfo) (cost : Option PyFloat) :
    Bool × CallRateLimitInfo × List PyFloat :=
  let st1 := decayAt now st
  let c := cost.getD st1.cost
  let ok := canCall st1 (some c)
  if ok then (true, { st1 with counter := pyAdd st1.counter c }, [])
  else (false, st1, [])

/-- `check_and_wait(cost)` at instant `now`: `decay()`, resolve the default
cost, `seconds = time_to_call(cost)`, `sleep(seconds)`, then unconditionally
`_counter += cost`.  The `ZeroDivisionError` of `time_to_call` propagates,
leaving the object in its post-`decay()` state. -/
def checkAndWaitAt (now : ℚ) (st : CallRateLimitInfo) (cost : Option PyFloat) :
    Except Unit (CallRateLimitInfo × List PyFloat) :=
  let st1 := decayAt now st
  let c := cost.getD st1.cost
  match timeToCall st1 c with
  | .error e => .error e
  | .ok seconds => .ok ({ st1 with counter := pyAdd st1.counter c }, [seconds])

end CallRateLimitInfo

-- ----------------------------------------------------------------------------
-- Sequences of budget operations (for the `counter >= 0` invariant)

/-- One call into a `_CallRateLimitInfo` object, tagged with the wall-clock
instant at which it happens (`time()` inside the call). -/
inductive BudgetOp where
  | decayO (now : ℚ) : BudgetOp
  | checkO (now : ℚ) (cost : Option PyFloat) : BudgetOp
  | checkAndWaitO (now : ℚ) (cost : Option PyFloat) : BudgetOp
  | setExceededO (now : ℚ) : BudgetOp
deriving DecidableEq, Repr

open CallRateLimitInfo in
/-- Effect of one budget call on the object state.  A `ZeroDivisionError`
inside `check_and_wait` propagates to the caller after `decay()` already ran,
so the object is left in its post-decay state. -/
def applyOp (op : BudgetOp) (st : CallRateLimitInfo) : CallRateLimitInfo :=
  match op with
  | .decayO now => decayAt now st
  | .checkO now cost => (checkAt now st cost).2.1
  | .checkAndWaitO now cost =>
    match checkAndWaitAt now st cost with
    | .error _ => decayAt now st
    | .ok (st2, _) => st2
  | .setExceededO now => setExceededAt now st

/-- Fold a call sequence over a budget state (head first). -/
def applyOps (ops : List BudgetOp) (st : CallRateLimitInfo) : CallRateLimitInfo :=
  ops.foldl (fun s op => applyOp op s) st

/-- A budget as the source ever constructs one: non-negative ceiling, default
cost and decay rate (`(1,1,1)`, `(15,1,0.33)`, `(20,1,0.5)`, `(20,1,1)`,
`(inf,0,0)`). -/
def wfBudget (st : CallRateLimitInfo) : Prop :=
  PyFloat.pyLe (.fin 0) st.limit = true ∧
  PyFloat.pyLe (.fin 0) st.cost = true ∧
  PyFloat.pyLe (.fin 0) st.decay = true

instance : DecidablePred wfBudget := fun st => by unfold wfBudget; infer_instance

/-- An operation with a non-negative explicit cost (a `none` cost falls back
to the budget's own default cost, covered by `wfBudget`). -/
def opWF (op : BudgetOp) : Prop :=
  match op with
  | .checkO _ (some c) => PyFloat.pyLe (.fin 0) c = true
  | .checkAndWaitO _ (some c) => PyFloat.pyLe (.fin 0) c = true
  | _ => True

instance : DecidablePred opWF := fun op => by
  unfold opWF
  rcases op with _ | ⟨_, _ | _⟩ | ⟨_, _ | _⟩ | _ <;> infer_instance

-- ----------------------------------------------------------------------------
-- Error taxonomy (exceptions.py) and endpoint tables (api.py lines 49-101)

/-- The `KrakenExAPIError` hierarchy of `exceptions.py`.  `invalidNonce`
mirrors `APIInvalidNonce`; `generic` carries the message of a bare
`KrakenExAPIError`. -/
inductive KErr where
  | rateLimitExceeded : KErr
  | argumentUsage : KErr
  | permissionDenied : KErr
  | invalidNonce : KErr
  | noSuchMethod (msg : String) : KErr
  | noPrivateKey : KErr
  | generic (msg : String) : KErr
deriving DecidableEq, Repr

/-- `API_METHODS_PUBLIC`. -/
def API_METHODS_PUBLIC : List String :=
  ["Time", "SystemStatus", "Assets", "AssetPairs", "Ticker", "OHLC",
   "Depth", "Trades", "Spread"]

/-- `API_METHODS_PRIVATE` (with the source's duplicated `"QueryOrders"`). -/
def API_METHODS_PRIVATE : List String :=
  ["Balance", "TradeBalance", "TradeVolume", "DepositMethods",
   "DepositAddresses", "DepositStatus", "WithdrawInfo", "Withdraw",
   "WithdrawCancel", "WithdrawStatus", "WalletTransfer",
   "OpenOrders", "QueryOrders", "OpenPositions", "ClosedOrders",
   "QueryOrders", "QueryTrades", "TradesHistory", "AddOrder", "CancelOrder",
   "Ledgers", "QueryLedgers",
   "AddExport", "RetrieveExport", "ExportStatus", "RemoveExport",
   "GetWebSocketsToken"]

/-- `API_METHODS_NO_RETRY`. -/
def API_METHODS_NO_RETRY : List String :=
  ["AddOrder", "AddExport", "Withdraw", "WalletTransfer"]

/-- `RawCallRateLimitedKrakenExAPI.__init__`: `self._num_retries = 3`. -/
def numRetries : ℕ := 3

-- ----------------------------------------------------------------------------
-- Request layer (`RawKrakenExAPI` / `RawCallRateLimitedKrakenExAPI`)

/-- Decoded JSON body of one transport response: the `"error"` message list
and the `"result"` payload. -/
structure RawResponse (α : Type) where
  error : List String
  result : α
deriving DecidableEq, Repr

/-- Observable side effects of a governed call: a rate-gate consultation
(`check_call(method, wait=True)`), a transport POST, an explicit `sleep`, or a
forced `set_exceeded(method)` on the corresponding budget. -/
inductive Ev where
  | gate (method : String) : Ev
  | transport (path : String) : Ev
  | sleepEv (seconds : ℚ) : Ev
  | setExceeded (method : String) : Ev
deriving DecidableEq, Repr

/-- Number of transport POSTs in a trace. -/
def countTransport : List Ev → ℕ
  | [] => 0
  | .transport _ :: rest => countTransport rest + 1
  | _ :: rest => countTransport rest

/-- `path.rsplit("/", 1)[-1]`: the part after the last `/` (the whole string
when there is none), computed on the character list. -/
def lastComponent (s : String) : String :=
  ⟨((s.data.reverse.takeWhile fun c => c ≠ '/')).reverse⟩

/-- Error classification of `RawKrakenExAPI._query_raw` (api.py lines
165-174).  Note the `"EAPI:Invalid nonce"` branch of the source is `pass`, so
control falls through to the generic `KrakenExAPIError` raise (with the
source's spelling `"Recieved response: "`). -/
def interpretError (errs : List String) : KErr :=
  if "EAPI:Rate limit exceeded" ∈ errs then .rateLimitExceeded
  else if "EGeneral:Invalid arguments" ∈ errs then .argumentUsage
  else if "EGeneral:Permission denied" ∈ errs then .permissionDenied
  else if "EAPI:Invalid nonce" ∈ errs then
    -- source: `pass` — falls through to the generic raise below
    .generic ("Recieved response: " ++ String.intercalate ", " errs)
  else .generic ("Recieved response: " ++ String.intercalate ", " errs)

/-- `RawKrakenExAPI._query_raw`: one transport POST (consuming one oracle
index), then either the `"result"` payload or the classified error when the
`"error"` list is non-empty (Python truthiness of a list). -/
def baseQueryRaw (oracle : ℕ → RawResponse α) (path : String) (n : ℕ) :
    Except KErr α × List Ev × ℕ :=
  let resp := oracle n
  (if resp.error.isEmpty then .ok resp.result else .error (interpretError resp.error),
   [.transport path], n + 1)

/-- Is the outcome the `APIRateLimitExceeded` exception (the only one the
retry code catches)? -/
def isRLE : Except KErr α → Bool
  | .error .rateLimitExceeded => true
  | _ => false

/-- `RawCallRateLimitedKrakenExAPI._query_raw` (the override): extract the
method from the path, `check_call(method, wait=True)` (the gate), then the
inherited `_query_raw`; on `APIRateLimitExceeded`: `sleep(1)`,
`set_exceeded(method)`, re-raise. -/
def rlQueryRaw (oracle : ℕ → RawResponse α) (path : String) (n : ℕ) :
    Except KErr α × List Ev × ℕ :=
  let m := lastComponent path
  let t := baseQueryRaw oracle path n
  if isRLE t.1 then
    (t.1, (Ev.gate m :: t.2.1) ++ [Ev.sleepEv 1, Ev.setExceeded m], t.2.2)
  else
    (t.1, Ev.gate m :: t.2.1, t.2.2)

/-- `RawKrakenExAPI.query_public` as executed on a
`RawCallRateLimitedKrakenExAPI` instance (so `self._query_raw` is the gated
override): unknown methods fail before anything else. -/
def queryPublicOnce (oracle : ℕ → RawResponse α) (m : String) (n : ℕ) :
    Except KErr α × List Ev × ℕ :=
  if m ∈ API_METHODS_PUBLIC then rlQueryRaw oracle ("/0/public/" ++ m) n
  else (.error (.noSuchMethod ("Unknown public API method: " ++ m)), [], n)

/-- `RawKrakenExAPI.query_private` on a `RawCallRateLimitedKrakenExAPI`
instance: membership check first, then the credentials check
(`hasCreds` = both API key and secret set), then the gated `_query_raw`. -/
def queryPrivateOnce (oracle : ℕ → RawResponse α) (hasCreds : Bool)
    (m : String) (n : ℕ) : Except KErr α × List Ev × ℕ :=
  if m ∈ API_METHODS_PRIVATE then
    if hasCreds then rlQueryRaw oracle ("/0/private/" ++ m) n
    else (.error .noPrivateKey, [], n)
  else (.error (.noSuchMethod ("Unknown private API method: " ++ m)), [], n)

/-- The retry loop of `RawCallRateLimitedKrakenExAPI.query_public`
(`for i in range(self._num_retries)`): `sleep(2 ** i)`,
`set_exceeded(method)`, re-invoke `super().query_public`; only
`APIRateLimitExceeded` is swallowed; after the last iteration the original
rate-limit error is re-raised.  `fuel` is the number of iterations left and
`i` the current loop index. -/
def retryPub (oracle : ℕ → RawResponse α) (m : String) :
    ℕ → ℕ → ℕ → Except KErr α × List Ev × ℕ
  | 0, _, n => (.error .rateLimitExceeded, [], n)
  | fuel + 1, i, n =>
    let pre : List Ev := [.sleepEv ((2 : ℚ) ^ i), .setExceeded m]
    let t := queryPublicOnce oracle m n
    if isRLE t.1 then
      let t2 := retryPub oracle m fuel (i + 1) t.2.2
      (t2.1, pre ++ t.2.1 ++ t2.2.1, t2.2.2)
    else
      (t.1, pre ++ t.2.1, t.2.2)

/-- `RawCallRateLimitedKrakenExAPI.query_public`: one attempt; on
`APIRateLimitExceeded`, if `self._num_retries > 0`, run the retry loop. -/
def rlQueryPublic (oracle : ℕ → RawResponse α) (m : String) (n : ℕ) :
    Except KErr α × List Ev × ℕ :=
  let t := queryPublicOnce oracle m n
  if isRLE t.1 then
    if 0 < numRetries then
      let t2 := retryPub oracle m numRetries 0 t.2.2
      (t2.1, t.2.1 ++ t2.2.1, t2.2.2)
    else t
  else t

/-- The retry loop of `RawCallRateLimitedKrakenExAPI.query_private`:
`sleep(2 ** (i + 1))`, `set_exceeded(method)`, re-invoke
`super().query_private`. -/
def retryPriv (oracle : ℕ → RawResponse α) (hasCreds : Bool) (m : String) :
    ℕ → ℕ → ℕ → Except KErr α × List Ev × ℕ
  | 0, _, n => (.error .rateLimitExceeded, [], n)
  | fuel + 1, i, n =>
    let pre : List Ev := [.sleepEv ((2 : ℚ) ^ (i + 1)), .setExceeded m]
    let t := queryPrivateOnce oracle hasCreds m n
    if isRLE t.1 then
      let t2 := retryPriv oracle hasCreds m fuel (i + 1) t.2.2
      (t2.1, pre ++ t.2.1 ++ t2.2.1, t2.2.2)
    else
      (t.1, pre ++ t.2.1, t.2.2)

/-- `RawCallRateLimitedKrakenExAPI.query_private`: one attempt; on
`APIRateLimitExceeded`, retry only when `self._num_retries > 0` and the
method is not in `API_METHODS_NO_RETRY`. -/
def rlQueryPrivate (oracle : ℕ → RawResponse α) (hasCreds : Bool)
    (m : String) (n : ℕ) : Except KErr α × List Ev × ℕ :=
  let t := queryPrivateOnce oracle hasCreds m n
  if isRLE t.1 then
    if 0 < numRetries ∧ m ∉ API_METHODS_NO_RETRY then
      let t2 := retryPriv oracle hasCreds m numRetries 0 t.2.2
      (t2.1, t.2.1 ++ t2.2.1, t2.2.2)
    else t
  else t

/-- Every transport POST in the trace is immediately preceded by a rate-gate
consultation for the method of its path. -/
def wellGated : List Ev → Bool
  | [] => true
  | .transport _ :: _ => false
  | .gate m :: .transport p :: rest => decide (lastComponent p = m) && wellGated rest
  | _ :: rest => wellGated rest

-- ----------------------------------------------------------------------------
-- Nonce (api.py lines 46-47 and 149-150)

/-- `NONCE_OFFSET = -datetime(2021, 1, 1).timestamp()` (the 2021-01-01 UTC
epoch second). -/
def NONCE_OFFSET : ℚ := -1609459200

/-- Python `int(x)` on a real value: truncation toward zero. -/
def pyTrunc (q : ℚ) : ℤ := if q < 0 then ⌈q⌉ else ⌊q⌋

/-- `RawKrakenExAPI.nonce` as a function of the wall-clock instant `t`
(the `time()` value): `int((time() + NONCE_OFFSET) * 1000)`. -/
def nonceAt (t : ℚ) : ℤ := pyTrunc ((t + NONCE_OFFSET) * 1000)

-- ----------------------------------------------------------------------------
-- `RawKrakenExAPI.load_key` (api.py lines 121-145)

/-- The credential pair held by a `RawKrakenExAPI` instance
(`__api_key` / `__api_secret`). -/
structure Creds where
  key : Option String
  secret : Option String
deriving DecidableEq, Repr

/-- Python truthiness of an `Optional[str]`: `None` and `""` are falsy. -/
def truthy : Option String → Bool
  | none => false
  | some s => !s.isEmpty

/-- `line.split("=", 1)[-1]`: everything after the first `=` (the whole line
when there is none — the callers guard with `"=" in line`). -/
def afterFirstEq (s : String) : String :=
  match s.data.dropWhile fun c => c ≠ '=' with
  | [] => s
  | _ :: rest => ⟨rest⟩

/-- Python `str.lstrip()`. -/
def pyLstrip (s : String) : String := ⟨s.data.dropWhile Char.isWhitespace⟩

/-- Python `str.strip()`. -/
def pyStrip (s : String) : String :=
  ⟨((s.data.dropWhile Char.isWhitespace).reverse.dropWhile
      Char.isWhitespace).reverse⟩

/-- Python `str.lower()`. -/
def pyLower (s : String) : String := ⟨s.data.map Char.toLower⟩

/-- Python `s.startswith(p)`. -/
def pyStartsWith (s p : String) : Bool := p.data.isPrefixOf s.data

/-- The line loop of `load_key`: for each stripped line, a line whose
lowercasing starts with `"key"` and contains `"="` (re)binds the key, an
`elif` line starting with `"secret"` (re)binds the secret; both start as
`None`. -/
def parseKeyLines (lines : List String) : Option String × Option String :=
  lines.foldl
    (fun ks line =>
      let l := pyStrip line
      if pyStartsWith (pyLower l) "key" && l.data.contains '=' then
        (some (pyLstrip (afterFirstEq l)), ks.2)
      else if pyStartsWith (pyLower l) "secret" && l.data.contains '=' then
        (ks.1, some (pyLstrip (afterFirstEq l)))
      else ks)
    (none, none)

/-- `load_key`: `none` models a missing key file (`NoPrivateKey` is raised);
otherwise the file's lines are parsed and the stored credentials are replaced
only when `if key and secret` holds, i.e. both parsed values are truthy. -/
def loadKey (file : Option (List String)) (st : Creds) : Except KErr Creds :=
  match file with
  | none => .error .noPrivateKey
  | some lines =>
    let ks := parseKeyLines lines
    if truthy ks.1 && truthy ks.2 then .ok { key := ks.1, secret := ks.2 }
    else .ok st

-- ----------------------------------------------------------------------------
-- Concrete transport oracles used in closed theorems

/-- Transport that answers `EAPI:Rate limit exceeded` on the first call and
succeeds with `7` afterwards. -/
def oracleOnceFail : ℕ → RawResponse ℕ := fun k =>
  if k = 0 then ⟨["EAPI:Rate limit exceeded"], 0⟩ else ⟨[], 7⟩

/-- Transport that answers `EAPI:Rate limit exceeded` on the first two calls
and succeeds with `42` afterwards. -/
def oracleTwoFail : ℕ → RawResponse ℕ := fun k =>
  if k < 2 then ⟨["EAPI:Rate limit exceeded"], 0⟩ else ⟨[], 42⟩

/-- Transport that always answers `EAPI:Rate limit exceeded`. -/
def oracleAllFail : ℕ → RawResponse ℕ := fun _ =>
  ⟨["EAPI:Rate limit exceeded"], 0⟩

/-- Transport that always answers `EAPI:Invalid nonce`. -/
def oracleInvalidNonce : ℕ → RawResponse ℕ := fun _ =>
  ⟨["EAPI:Invalid nonce"], 0⟩

/-- Transport that always succeeds with `0`. -/
def oracleOk : ℕ → RawResponse ℕ := fun _ => ⟨[], 0⟩

-- ----------------------------------------------------------------------------
-- Helper lemmas

theorem isRLE_eq_true {α : Type} (r : Except KErr α) :
    isRLE r = true ↔ r = .error .rateLimitExceeded := by
  cases r with
  | ok v => simp [isRLE]
  | error e => cases e <;> simp [isRLE]

theorem countTransport_append (a b : List Ev) :
    countTransport (a ++ b) = countTransport a + countTransport b := by
  induction a with
  | nil => simp [countTransport]
  | cons e rest ih =>
    cases e <;> (simp [countTransport, ih]; try omega)

theorem rlQueryRaw_shape {α : Type} (oracle : ℕ → RawResponse α)
    (path : String) (n : ℕ) :
    (rlQueryRaw oracle path n =
        ((baseQueryRaw oracle path n).1,
         [Ev.gate (lastComponent path), Ev.transport path], n + 1) ∧
      isRLE (baseQueryRaw oracle path n).1 = false) ∨
    rlQueryRaw oracle path n =
        (.error .rateLimitExceeded,
         [Ev.gate (lastComponent path), Ev.transport path, Ev.sleepEv 1,
          Ev.setExceeded (lastComponent path)], n + 1) := by
  cases h : isRLE (baseQueryRaw oracle path n).1 with
  | false =>
    refine Or.inl ⟨?_, rfl⟩
    simp only [rlQueryRaw]
    rw [h]
    rfl
  | true =>
    refine Or.inr ?_
    have h1 := (isRLE_eq_true _).mp h
    simp only [rlQueryRaw]
    rw [h, h1]
    rfl

/-- One inherited `query_private` attempt either fails before any effect, or
performs exactly one gated transport POST (with the rate-limit tail exactly
when the outcome is `APIRateLimitExceeded`). -/
theorem queryPrivateOnce_shape {α : Type} (oracle : ℕ → RawResponse α)
    (creds : Bool) (m : String) (n : ℕ) :
    ((queryPrivateOnce oracle creds m n).2.1 = [] ∧
      (queryPrivateOnce oracle creds m n).2.2 = n ∧
      isRLE (queryPrivateOnce oracle creds m n).1 = false) ∨
    ((queryPrivateOnce oracle creds m n).2.1 =
        [Ev.gate (lastComponent ("/0/private/" ++ m)),
         Ev.transport ("/0/private/" ++ m)] ∧
      (queryPrivateOnce oracle creds m n).2.2 = n + 1 ∧
      isRLE (queryPrivateOnce oracle creds m n).1 = false) ∨
    ((queryPrivateOnce oracle creds m n).2.1 =
        [Ev.gate (lastComponent ("/0/private/" ++ m)),
         Ev.transport ("/0/private/" ++ m), Ev.sleepEv 1,
         Ev.setExceeded (lastComponent ("/0/private/" ++ m))] ∧
      (queryPrivateOnce oracle creds m n).2.2 = n + 1 ∧
      (queryPrivateOnce oracle creds m n).1 = .error .rateLimitExceeded) := by
  by_cases hm : m ∈ API_METHODS_PRIVATE
  · cases creds with
    | false => exact Or.inl (by simp [queryPrivateOnce, hm, isRLE])
    | true =>
      rcases rlQueryRaw_shape oracle ("/0/private/" ++ m) n with ⟨heq, hrle⟩ | heq
      · exact Or.inr (Or.inl (by simp [queryPrivateOnce, hm, heq, hrle]))
      · exact Or.inr (Or.inr (by simp [queryPrivateOnce, hm, heq]))
  · exact Or.inl (by simp [queryPrivateOnce, hm, isRLE])

/-- Same shape statement for one inherited `query_public` attempt. -/
theorem queryPublicOnce_shape {α : Type} (oracle : ℕ → RawResponse α)
    (m : String) (n : ℕ) :
    ((queryPublicOnce oracle m n).2.1 = [] ∧
      (queryPublicOnce oracle m n).2.2 = n ∧
      isRLE (queryPublicOnce oracle m n).1 = false) ∨
    ((queryPublicOnce oracle m n).2.1 =
        [Ev.gate (lastComponent ("/0/public/" ++ m)),
         Ev.transport ("/0/public/" ++ m)] ∧
      (queryPublicOnce oracle m n).2.2 = n + 1 ∧
      isRLE (queryPublicOnce oracle m n).1 = false) ∨
    ((queryPublicOnce oracle m n).2.1 =
        [Ev.gate (lastComponent ("/0/public/" ++ m)),
         Ev.transport ("/0/public/" ++ m), Ev.sleepEv 1,
         Ev.setExceeded (lastComponent ("/0/public/" ++ m))] ∧
      (queryPublicOnce oracle m n).2.2 = n + 1 ∧
      (queryPublicOnce oracle m n).1 = .error .rateLimitExceeded) := by
  by_cases hm : m ∈ API_METHODS_PUBLIC
  · rcases rlQueryRaw_shape oracle ("/0/public/" ++ m) n with ⟨heq, hrle⟩ | heq
    · exact Or.inr (Or.inl (by simp [queryPublicOnce, hm, heq, hrle]))
    · exact Or.inr (Or.inr (by simp [queryPublicOnce, hm, heq]))
  · exact Or.inl (by simp [queryPublicOnce, hm, isRLE])

/-- One `query_private` attempt performs at most one transport POST. -/
theorem countTransport_queryPrivateOnce {α : Type} (oracle : ℕ → RawResponse α)
    (creds : Bool) (m : String) (n : ℕ) :
    countTransport (queryPrivateOnce oracle creds m n).2.1 ≤ 1 := by
  rcases queryPrivateOnce_shape oracle creds m n with ⟨h, _⟩ | ⟨h, _⟩ | ⟨h, _⟩ <;>
    simp [h, countTransport]

/-- One `query_public` attempt performs at most one transport POST. -/
theorem countTransport_queryPublicOnce {α : Type} (oracle : ℕ → RawResponse α)
    (m : String) (n : ℕ) :
    countTransport (queryPublicOnce oracle m n).2.1 ≤ 1 := by
  rcases queryPublicOnce_shape oracle m n with ⟨h, _⟩ | ⟨h, _⟩ | ⟨h, _⟩ <;>
    simp [h, countTransport]

/-- The private retry loop performs at most `fuel` transport POSTs. -/
theorem countTransport_retryPriv {α : Type} (oracle : ℕ → RawResponse α)
    (creds : Bool) (m : String) :
    ∀ fuel i n, countTransport (retryPriv oracle creds m fuel i n).2.1 ≤ fuel := by
  intro fuel
  induction fuel with
  | zero => intro i n; simp [retryPriv, countTransport]
  | succ fuel ih =>
    intro i n
    have h1 := countTransport_queryPrivateOnce oracle creds m n
    cases h : isRLE (queryPrivateOnce oracle creds m n).1 with
    | false =>
      simp only [retryPriv, h, if_neg Bool.false_ne_true, List.cons_append,
        List.nil_append]
      simp [countTransport, countTransport_append]
      omega
    | true =>
      have h2 := ih (i + 1) (queryPrivateOnce oracle creds m n).2.2
      simp only [retryPriv, h, if_pos rfl, List.cons_append, List.nil_append]
      simp [countTransport, countTransport_append]
      omega

/-- The public retry loop performs at most `fuel` transport POSTs. -/
theorem countTransport_retryPub {α : Type} (oracle : ℕ → RawResponse α)
    (m : String) :
    ∀ fuel i n, countTransport (retryPub oracle m fuel i n).2.1 ≤ fuel := by
  intro fuel
  induction fuel with
  | zero => intro i n; simp [retryPub, countTransport]
  | succ fuel ih =>
    intro i n
    have h1 := countTransport_queryPublicOnce oracle m n
    cases h : isRLE (queryPublicOnce oracle m n).1 with
    | false =>
      simp only [retryPub, h, if_neg Bool.false_ne_true, List.cons_append,
        List.nil_append]
      simp [countTransport, countTransport_append]
      omega
    | true =>
      have h2 := ih (i + 1) (queryPublicOnce oracle m n).2.2
      simp only [retryPub, h, if_pos rfl, List.cons_append, List.nil_append]
      simp [countTransport, countTransport_append]
      omega

/-- When the transport always answers with the remote rate-limit error, one
`query_private` attempt on a known private method yields exactly the
rate-limited gated POST. -/
theorem queryPrivateOnce_allRLE {α : Type} (oracle : ℕ → RawResponse α)
    (m : String) (n : ℕ) (hm : m ∈ API_METHODS_PRIVATE)
    (h : "EAPI:Rate limit exceeded" ∈ (oracle n).error) :
    queryPrivateOnce oracle true m n =
      (.error .rateLimitExceeded,
       [Ev.gate (lastComponent ("/0/private/" ++ m)),
        Ev.transport ("/0/private/" ++ m), Ev.sleepEv 1,
        Ev.setExceeded (lastComponent ("/0/private/" ++ m))], n + 1) := by
  have hne : (oracle n).error ≠ [] := List.ne_nil_of_mem h
  have h1 : (baseQueryRaw oracle ("/0/private/" ++ m) n).1 =
      .error .rateLimitExceeded := by
    simp [baseQueryRaw, hne, interpretError, h]
  rcases rlQueryRaw_shape oracle ("/0/private/" ++ m) n with ⟨_, hrle⟩ | heq
  · rw [h1] at hrle; simp [isRLE] at hrle
  · simp [queryPrivateOnce, hm, heq]

/-- Under an always-rate-limited transport, the private retry loop fails with
the rate-limit error after exactly `fuel` further transport POSTs. -/
theorem retryPriv_allRLE {α : Type} (oracle : ℕ → RawResponse α) (m : String)
    (hm : m ∈ API_METHODS_PRIVATE)
    (hall : ∀ k, "EAPI:Rate limit exceeded" ∈ (oracle k).error) :
    ∀ fuel i n,
      (retryPriv oracle true m fuel i n).1 = .error .rateLimitExceeded ∧
      countTransport (retryPriv oracle true m fuel i n).2.1 = fuel ∧
      (retryPriv oracle true m fuel i n).2.2 = n + fuel := by
  intro fuel
  induction fuel with
  | zero => intro i n; simp [retryPriv, countTransport]
  | succ fuel ih =>
    intro i n
    have hq := queryPrivateOnce_allRLE oracle m n hm (hall n)
    have ihn := ih (i + 1) (n + 1)
    simp only [retryPriv, hq, isRLE, if_pos rfl]
    refine ⟨ihn.1, ?_, ?_⟩
    · simp [countTransport_append, countTransport, ihn.2.1]
    · simp [ihn.2.2]; omega

/-- Every transport POST inside the private retry loop is immediately
preceded by its gate. -/
theorem wellGated_retryPriv {α : Type} (oracle : ℕ → RawResponse α)
    (creds : Bool) (m : String) :
    ∀ fuel i n, wellGated (retryPriv oracle creds m fuel i n).2.1 = true := by
  intro fuel
  induction fuel with
  | zero => intro i n; simp [retryPriv, wellGated]
  | succ fuel ih =>
    intro i n
    rcases queryPrivateOnce_shape oracle creds m n with
      ⟨htr, _, hrle⟩ | ⟨htr, _, hrle⟩ | ⟨htr, _, hres⟩
    · simp [retryPriv, hrle, htr, wellGated]
    · simp [retryPriv, hrle, htr, wellGated]
    · have hrle : isRLE (queryPrivateOnce oracle creds m n).1 = true := by
        rw [hres]; rfl
      simp [retryPriv, hrle, htr, wellGated, ih]

/-- Every transport POST inside the public retry loop is immediately preceded
by its gate. -/
theorem wellGated_retryPub {α : Type} (oracle : ℕ → RawResponse α)
    (m : String) :
    ∀ fuel i n, wellGated (retryPub oracle m fuel i n).2.1 = true := by
  intro fuel
  induction fuel with
  | zero => intro i n; simp [retryPub, wellGated]
  | succ fuel ih =>
    intro i n
    rcases queryPublicOnce_shape oracle m n with
      ⟨htr, _, hrle⟩ | ⟨htr, _, hrle⟩ | ⟨htr, _, hres⟩
    · simp [retryPub, hrle, htr, wellGated]
    · simp [retryPub, hrle, htr, wellGated]
    · have hrle : isRLE (queryPublicOnce oracle m n).1 = true := by
        rw [hres]; rfl
      simp [retryPub, hrle, htr, wellGated, ih]

open CallRateLimitInfo in
theorem pyLe_zero_pyMax_zero (x : PyFloat) :
    pyLe (.fin 0) (pyMax (.fin 0) x) = true := by
  rcases x with _ | _ | _ | q
  · simp [pyMax, pyLt, pyLe]
  · simp [pyMax, pyLt, pyLe]
  · simp [pyMax, pyLt, pyLe]
  · by_cases h : (0 : ℚ) < q
    · simp [pyMax, pyLt, pyLe, h, le_of_lt h]
    · simp [pyMax, pyLt, pyLe, h]

theorem counter_decayAt_nonneg (now : ℚ) (st : CallRateLimitInfo) :
    pyLe (.fin 0) (CallRateLimitInfo.decayAt now st).counter = true :=
  pyLe_zero_pyMax_zero _

theorem pyLe_zero_pyAdd {a b : PyFloat} (ha : pyLe (.fin 0) a = true)
    (hb : pyLe (.fin 0) b = true) : pyLe (.fin 0) (pyAdd a b) = true := by
  rcases a with _ | _ | _ | qa <;> rcases b with _ | _ | _ | qb <;>
    simp_all [pyLe, pyAdd]
  linarith

theorem pyLe_zero_pyMul_three {a : PyFloat} (ha : pyLe (.fin 0) a = true) :
    pyLe (.fin 0) (pyMul a (.fin 3)) = true := by
  rcases a with _ | _ | _ | qa
  · simp_all [pyLe]
  · norm_num [pyMul, pyLe]
  · simp_all [pyLe]
  · simp_all [pyLe, pyMul]

theorem applyOp_fields (op : BudgetOp) (st : CallRateLimitInfo) :
    (applyOp op st).limit = st.limit ∧ (applyOp op st).cost = st.cost ∧
    (applyOp op st).decay = st.decay := by
  rcases op with now | ⟨now, c⟩ | ⟨now, c⟩ | now
  · exact ⟨rfl, rfl, rfl⟩
  · simp only [applyOp, CallRateLimitInfo.checkAt]
    split
    · exact ⟨rfl, rfl, rfl⟩
    · exact ⟨rfl, rfl, rfl⟩
  · rcases h : CallRateLimitInfo.timeToCall (CallRateLimitInfo.decayAt now st)
        (c.getD (CallRateLimitInfo.decayAt now st).cost) with e | sec
    · simp only [applyOp, CallRateLimitInfo.checkAndWaitAt, h]
      exact ⟨rfl, rfl, rfl⟩
    · simp only [applyOp, CallRateLimitInfo.checkAndWaitAt, h]
      exact ⟨rfl, rfl, rfl⟩
  · exact ⟨rfl, rfl, rfl⟩

theorem wfBudget_applyOp (op : BudgetOp) (st : CallRateLimitInfo)
    (h : wfBudget st) : wfBudget (applyOp op st) := by
  obtain ⟨h1, h2, h3⟩ := applyOp_fields op st
  exact ⟨h1 ▸ h.1, h2 ▸ h.2.1, h3 ▸ h.2.2⟩

open CallRateLimitInfo in
theorem counter_applyOp_nonneg (op : BudgetOp) (st : CallRateLimitInfo)
    (hwf : wfBudget st) (hop : opWF op) :
    pyLe (.fin 0) (applyOp op st).counter = true := by
  rcases op with now | ⟨now, c⟩ | ⟨now, c⟩ | now
  · exact counter_decayAt_nonneg now st
  · simp only [applyOp, checkAt]
    have hc : pyLe (.fin 0) ((c.getD (decayAt now st).cost)) = true := by
      rcases c with _ | c
      · exact hwf.2.1
      · exact hop
    split
    · exact pyLe_zero_pyAdd (counter_decayAt_nonneg now st) hc
    · exact counter_decayAt_nonneg now st
  · have hc : pyLe (.fin 0) ((c.getD (decayAt now st).cost)) = true := by
      rcases c with _ | c
      · exact hwf.2.1
      · exact hop
    rcases h : timeToCall (decayAt now st) (c.getD (decayAt now st).cost)
      with e | sec
    · simp only [applyOp, checkAndWaitAt, h]
      exact counter_decayAt_nonneg now st
    · simp only [applyOp, checkAndWaitAt, h]
      exact pyLe_zero_pyAdd (counter_decayAt_nonneg now st) hc
  · exact pyLe_zero_pyAdd hwf.1 (pyLe_zero_pyMul_three hwf.2.2)

theorem pyMax_zero_le_inf (y : PyFloat) :
    pyLe (pyMax (.fin 0) y) .inf = true := by
  rcases y with _ | _ | _ | q
  · simp [pyMax, pyLt, pyLe]
  · simp [pyMax, pyLt, pyLe]
  · simp [pyMax, pyLt, pyLe]
  · by_cases h : (0 : ℚ) < q <;> simp [pyMax, pyLt, pyLe, h]

open CallRateLimitInfo in
/-- With wall-clock time moving forward and a non-negative decay rate,
`decay()` never increases the counter. -/
theorem decayAt_counter_le (now : ℚ) (st : CallRateLimitInfo)
    (ht : st.last_time ≤ now) (hd : pyLe (.fin 0) st.decay = true)
    (hc : pyLe (.fin 0) st.counter = true) :
    pyLe (decayAt now st).counter st.counter = true := by
  have hs : 0 ≤ now - st.last_time := by linarith
  have hkey : (decayAt now st).counter =
      pyMax (.fin 0) (pySub st.counter (pyMul st.decay (.fin (now - st.last_time)))) := rfl
  rw [hkey]
  rcases hcc : st.counter with _ | _ | _ | c
  · rw [hcc] at hc; simp [pyLe] at hc
  · exact pyMax_zero_le_inf _
  · rw [hcc] at hc; simp [pyLe] at hc
  · have hc0 : (0 : ℚ) ≤ c := by rw [hcc] at hc; simpa [pyLe] using hc
    rcases hdd : st.decay with _ | _ | _ | d
    · rw [hdd] at hd; simp [pyLe] at hd
    · by_cases h0 : now - st.last_time = 0
      · simp [h0, pyMul, pySub, pyAdd, pyNeg, pyMax, pyLt, pyLe, hc0]
      · have hpos : 0 < now - st.last_time := lt_of_le_of_ne hs (Ne.symm h0)
        simp [pyMul, h0, hpos, pySub, pyAdd, pyNeg, pyMax, pyLt, pyLe, hc0]
    · rw [hdd] at hd; simp [pyLe] at hd
    · have hd0 : (0 : ℚ) ≤ d := by rw [hdd] at hd; simpa [pyLe] using hd
      have hds : 0 ≤ d * (now - st.last_time) := mul_nonneg hd0 hs
      simp only [pyMul, pySub, pyNeg, pyAdd, pyMax, pyLt, pyLe]
      split_ifs with h1
      · rw [decide_eq_true_eq] at h1
        simp only [pyLe, decide_eq_true_eq]
        linarith
      · simp only [pyLe, decide_eq_true_eq]
        linarith

theorem decayAt_cost (now : ℚ) (st : CallRateLimitInfo) :
    (CallRateLimitInfo.decayAt now st).cost = st.cost := rfl

theorem decayAt_limit (now : ℚ) (st : CallRateLimitInfo) :
    (CallRateLimitInfo.decayAt now st).limit = st.limit := rfl

-- ----------------------------------------------------------------------------
-- Claim theorems

open CallRateLimitInfo in
/-- Claim C2 (counterexample): `time_to_call` is *not* total on every budget
state — for the state `limit = 15`, `decay = 0`, `counter = 16` and cost `1`
(a zero-decay budget above its ceiling), the division `(-remaining) / _decay`
is executed with `_decay == 0` and raises `ZeroDivisionError`; there is no
guard. -/
theorem c2_counterexample_div_by_zero :
    timeToCall ⟨.fin 15, .fin 1, .fin 0, .fin 16, 0⟩ (.fin 1) = .error () := by
  simp only [timeToCall, pySub, pyAdd, pyNeg, pyLe, pyDiv]
  norm_num

open CallRateLimitInfo in
/-- Claim C2 (amended): on finite-valued budget states, `time_to_call(cost)`
returns `0` when `counter + cost <= ceiling` and
`(counter + cost - ceiling) / decay_rate` when the ceiling is exceeded with a
non-zero decay rate; but when `decay_rate == 0` and the ceiling is exceeded it
raises `ZeroDivisionError` (the division is not guarded). -/
theorem c2_amended_time_to_call :
    ∀ (l d c k t : ℚ) (co : PyFloat),
      timeToCall ⟨.fin l, co, .fin d, .fin c, t⟩ (.fin k) =
        if c + k ≤ l then .ok (.fin 0)
        else if d = 0 then .error ()
        else .ok (.fin ((c + k - l) / d)) := by
  intro l d c k t co
  simp only [timeToCall, pySub, pyAdd, pyNeg, pyLe, pyDiv]
  by_cases h : c + k ≤ l
  · rw [if_pos (by rw [decide_eq_true_eq]; linarith), if_pos h]
  · rw [if_neg (by rw [decide_eq_true_eq]; intro hx; exact h (by linarith)),
      if_neg h]
    by_cases hd : d = 0
    · simp [hd]
    · simp only [hd, if_false]
      have hr : -(l + -(c + k)) = c + k - l := by ring
      rw [hr]

open CallRateLimitInfo in
/-- Claim C5: `check(cost)` first applies `decay()`, then admits the cost iff
post-decay `counter + cost <= ceiling`; on admission the counter grows by
exactly `cost`, on refusal the post-decay state is returned unchanged, and no
sleep is ever performed. -/
theorem c5_check_semantics :
    ∀ (now : ℚ) (st : CallRateLimitInfo) (cost : Option PyFloat),
      ((checkAt now st cost).1 =
          pyLe (pyAdd (decayAt now st).counter (cost.getD st.cost)) st.limit)
      ∧ ((checkAt now st cost).1 = true →
          (checkAt now st cost).2.1 =
            { decayAt now st with
              counter := pyAdd (decayAt now st).counter (cost.getD st.cost) })
      ∧ ((checkAt now st cost).1 = false →
          (checkAt now st cost).2.1 = decayAt now st)
      ∧ (checkAt now st cost).2.2 = [] := by
  intro now st cost
  cases h : canCall (decayAt now st) (some (cost.getD st.cost)) with
  | false =>
    refine ⟨?_, ?_, ?_, ?_⟩ <;>
      simp_all [checkAt, canCall, decayAt_cost, decayAt_limit]
  | true =>
    refine ⟨?_, ?_, ?_, ?_⟩ <;>
      simp_all [checkAt, canCall, decayAt_cost, decayAt_limit]

open CallRateLimitInfo in
/-- Claim C5 (witness): on the fresh Starter-tier private budget at time `1`
with the default cost, `check` admits and the counter becomes `1`. -/
theorem c5_witness :
    (checkAt 1 ⟨.fin 15, .fin 1, .fin 1, .fin 0, 0⟩ none).1 = true
    ∧ (checkAt 1 ⟨.fin 15, .fin 1, .fin 1, .fin 0, 0⟩ none).2.1 =
        { decayAt 1 ⟨.fin 15, .fin 1, .fin 1, .fin 0, 0⟩ with
          counter := pyAdd (decayAt 1 ⟨.fin 15, .fin 1, .fin 1, .fin 0, 0⟩).counter
            (.fin 1) }
    ∧ (checkAt 1 ⟨.fin 15, .fin 1, .fin 1, .fin 0, 0⟩ none).2.2 = [] := by
  have h := c5_check_semantics 1 ⟨.fin 15, .fin 1, .fin 1, .fin 0, 0⟩ none
  have h1 : (checkAt 1 (⟨.fin 15, .fin 1, .fin 1, .fin 0, 0⟩ : CallRateLimitInfo)
      none).1 = true := by
    rw [h.1]
    simp only [Option.getD, decayAt, pySub, pyMul, pyAdd, pyNeg, pyMax, pyLt,
      pyLe]
    norm_num
  exact ⟨h1, h.2.1 h1, h.2.2.2⟩

open CallRateLimitInfo in
/-- Claim C6 (amended): over every sequence of budget calls with non-negative
costs on a budget with non-negative ceiling, default cost and decay rate, the
invariant `counter >= 0` is preserved; with time moving forward `decay` never
increases the counter; `check` increases it exactly by the admitted cost (and
otherwise leaves the post-decay counter unchanged); `check_and_wait` adds
exactly its cost; and `set_exceeded` *sets* `counter = ceiling + 3 *
decay_rate` — which, as the counterexample shows, can also decrease the
counter, so "only decreases via decay" does not hold of `set_exceeded`. -/
theorem c6_amended_invariant :
    (∀ (ops : List BudgetOp) (st : CallRateLimitInfo), wfBudget st →
        (∀ op ∈ ops, opWF op) → pyLe (.fin 0) st.counter = true →
        pyLe (.fin 0) (applyOps ops st).counter = true)
    ∧ (∀ (now : ℚ) (st : CallRateLimitInfo), st.last_time ≤ now →
        pyLe (.fin 0) st.decay = true → pyLe (.fin 0) st.counter = true →
        pyLe (decayAt now st).counter st.counter = true)
    ∧ (∀ (now : ℚ) (st : CallRateLimitInfo) (cost : Option PyFloat),
        (checkAt now st cost).1 = true →
          (checkAt now st cost).2.1.counter =
            pyAdd (decayAt now st).counter (cost.getD st.cost))
    ∧ (∀ (now : ℚ) (st : CallRateLimitInfo) (cost : Option PyFloat),
        (checkAt now st cost).1 = false →
          (checkAt now st cost).2.1.counter = (decayAt now st).counter)
    ∧ (∀ (now : ℚ) (st : CallRateLimitInfo) (cost : Option PyFloat)
        (st2 : CallRateLimitInfo) (sl : List PyFloat),
        checkAndWaitAt now st cost = .ok (st2, sl) →
          st2.counter = pyAdd (decayAt now st).counter (cost.getD st.cost))
    ∧ (∀ (now : ℚ) (st : CallRateLimitInfo),
        (setExceededAt now st).counter =
          pyAdd st.limit (pyMul st.decay (.fin 3))) := by
  refine ⟨?_, ?_, ?_, ?_, ?_, ?_⟩
  · intro ops
    induction ops with
    | nil => intro st _ _ hc; exact hc
    | cons op ops ih =>
      intro st hwf hops hc
      simp only [applyOps, List.foldl_cons]
      exact ih (applyOp op st) (wfBudget_applyOp op st hwf)
        (fun o ho => hops o (List.mem_cons_of_mem _ ho))
        (counter_applyOp_nonneg op st hwf (hops op (List.mem_cons_self op ops)))
  · exact decayAt_counter_le
  · intro now st cost h
    cases hcc : canCall (decayAt now st) (some (cost.getD st.cost)) with
    | false => simp_all [checkAt, decayAt_cost]
    | true => simp_all [checkAt, decayAt_cost]
  · intro now st cost h
    cases hcc : canCall (decayAt now st) (some (cost.getD st.cost)) with
    | false => simp_all [checkAt, decayAt_cost]
    | true => simp_all [checkAt, decayAt_cost]
  · intro now st cost st2 sl h
    rw [checkAndWaitAt] at h
    rcases ht : timeToCall (decayAt now st) (cost.getD (decayAt now st).cost)
      with e | sec
    · rw [ht] at h
      exact absurd h (by simp)
    · rw [ht] at h
      injection h with h1
      rw [Prod.mk.injEq] at h1
      rw [← h1.1]
      rfl
  · intro now st
    rfl

open CallRateLimitInfo in
/-- Claim C6 (counterexample): `set_exceeded` can *decrease* the counter — on
the budget `limit = 1`, `decay = 1`, `counter = 100` it clamps the counter
down to `1 + 3 = 4`, a decrease that is not caused by `decay`.  This refutes
"the counter ... only decreases via decay". -/
theorem c6_counterexample_set_exceeded_decreases :
    (setExceededAt 5 ⟨.fin 1, .fin 1, .fin 1, .fin 100, 0⟩).counter = .fin 4
    ∧ pyLt (setExceededAt 5 ⟨.fin 1, .fin 1, .fin 1, .fin 100, 0⟩).counter
        (.fin 100) = true := by
  have h : (setExceededAt 5 (⟨.fin 1, .fin 1, .fin 1, .fin 100, 0⟩ :
      CallRateLimitInfo)).counter = .fin 4 := by
    simp only [setExceededAt, pyAdd, pyMul]
    norm_num
  refine ⟨h, ?_⟩
  rw [h]
  simp only [pyLt, decide_eq_true_eq]
  norm_num

open CallRateLimitInfo in
/-- Claim C6 (witness): a concrete well-formed budget and call sequence for
which the invariant theorem applies. -/
theorem c6_witness :
    wfBudget ⟨.fin 15, .fin 1, .fin 1, .fin 0, 0⟩
    ∧ pyLe (.fin 0) (applyOps
        [.decayO 1, .checkO 2 (some (.fin 2)), .setExceededO 3,
         .checkAndWaitO 4 none]
        ⟨.fin 15, .fin 1, .fin 1, .fin 0, 0⟩).counter = true := by
  refine ⟨by decide, ?_⟩
  exact c6_amended_invariant.1 _ _ (by decide) (by decide) (by decide)

/-- Claim C7 (code bug): a transport response carrying `"EAPI:Invalid nonce"`
does *not* raise the dedicated typed `APIInvalidNonce` error — the source's
branch body is `pass`, so control falls through to the generic
`KrakenExAPIError` raise (with the raw message list); the generic error is
indeed never retried (a single transport POST).  The typed error
`exceptions.APIInvalidNonce` documents `EAPI:Invalid nonce` but is never
raised by `api.py`. -/
theorem c7_invalid_nonce_generic :
    interpretError ["EAPI:Invalid nonce"] =
      .generic "Recieved response: EAPI:Invalid nonce"
    ∧ KErr.generic "Recieved response: EAPI:Invalid nonce" ≠ KErr.invalidNonce
    ∧ (rlQueryPrivate oracleInvalidNonce true "Balance" 0).1 =
        .error (.generic "Recieved response: EAPI:Invalid nonce")
    ∧ countTransport (rlQueryPrivate oracleInvalidNonce true "Balance" 0).2.1 = 1 := by
  refine ⟨rfl, ?_, rfl, rfl⟩
  intro h
  exact KErr.noConfusion h

/-- Claim C8: a method name outside the fixed endpoint lists fails with the
unknown-method error before any effect: no gate consultation, no transport
POST, no sleep, no forced exceed (the empty trace), and the transport index
is unchanged — on both the public and the private path. -/
theorem c8_unknown_method_no_effect :
    ∀ {α : Type} (oracle : ℕ → RawResponse α) (m : String) (n : ℕ),
      (m ∉ API_METHODS_PUBLIC →
        rlQueryPublic oracle m n =
          (.error (.noSuchMethod ("Unknown public API method: " ++ m)), [], n))
      ∧ (∀ creds, m ∉ API_METHODS_PRIVATE →
        rlQueryPrivate oracle creds m n =
          (.error (.noSuchMethod ("Unknown private API method: " ++ m)), [], n)) := by
  intro α oracle m n
  constructor
  · intro hm
    simp [rlQueryPublic, queryPublicOnce, hm, isRLE]
  · intro creds hm
    simp [rlQueryPrivate, queryPrivateOnce, hm, isRLE]

/-- Claim C8 (witness): the unrecognized name `"Foo"` on both paths. -/
theorem c8_witness :
    "Foo" ∉ API_METHODS_PUBLIC ∧ "Foo" ∉ API_METHODS_PRIVATE
    ∧ rlQueryPublic oracleOk "Foo" 0 =
        (.error (.noSuchMethod "Unknown public API method: Foo"), [], 0)
    ∧ rlQueryPrivate oracleOk true "Foo" 0 =
        (.error (.noSuchMethod "Unknown private API method: Foo"), [], 0) := by
  refine ⟨by decide, by decide, ?_, ?_⟩
  · exact (c8_unknown_method_no_effect oracleOk "Foo" 0).1 (by decide)
  · exact (c8_unknown_method_no_effect oracleOk "Foo" 0).2 true (by decide)

/-- Claim C4: for every endpoint in `API_METHODS_NO_RETRY` (`AddOrder`,
`AddExport`, `Withdraw`, `WalletTransfer`), a transport answer of
`EAPI:Rate limit exceeded` propagates to the caller immediately: exactly one
transport POST happens (the retry loop is never entered) and the call ends
with the rate-limit error. -/
theorem c4_no_retry_propagates :
    ∀ {α : Type} (oracle : ℕ → RawResponse α) (m : String) (n : ℕ),
      m ∈ API_METHODS_NO_RETRY →
      "EAPI:Rate limit exceeded" ∈ (oracle n).error →
      rlQueryPrivate oracle true m n =
        (.error .rateLimitExceeded,
         [.gate m, .transport ("/0/private/" ++ m), .sleepEv 1,
          .setExceeded m], n + 1) := by
  intro α oracle m n hm h
  have hcases : m = "AddOrder" ∨ m = "AddExport" ∨ m = "Withdraw" ∨
      m = "WalletTransfer" := by simpa [API_METHODS_NO_RETRY] using hm
  rcases hcases with rfl | rfl | rfl | rfl
  · have hq := queryPrivateOnce_allRLE oracle "AddOrder" n (by decide) h
    rw [show lastComponent ("/0/private/" ++ "AddOrder") = "AddOrder" from rfl] at hq
    simp [rlQueryPrivate, hq, isRLE, numRetries]
    exact fun hc => absurd hm hc
  · have hq := queryPrivateOnce_allRLE oracle "AddExport" n (by decide) h
    rw [show lastComponent ("/0/private/" ++ "AddExport") = "AddExport" from rfl] at hq
    simp [rlQueryPrivate, hq, isRLE, numRetries]
    exact fun hc => absurd hm hc
  · have hq := queryPrivateOnce_allRLE oracle "Withdraw" n (by decide) h
    rw [show lastComponent ("/0/private/" ++ "Withdraw") = "Withdraw" from rfl] at hq
    simp [rlQueryPrivate, hq, isRLE, numRetries]
    exact fun hc => absurd hm hc
  · have hq := queryPrivateOnce_allRLE oracle "WalletTransfer" n (by decide) h
    rw [show lastComponent ("/0/private/" ++ "WalletTransfer") = "WalletTransfer" from rfl] at hq
    simp [rlQueryPrivate, hq, isRLE, numRetries]
    exact fun hc => absurd hm hc

/-- Claim C4 (witness): `AddOrder` against an always-rate-limited transport.
The trace holds exactly one transport POST. -/
theorem c4_witness :
    "AddOrder" ∈ API_METHODS_NO_RETRY
    ∧ "EAPI:Rate limit exceeded" ∈ (oracleAllFail 0).error
    ∧ rlQueryPrivate oracleAllFail true "AddOrder" 0 =
        (.error .rateLimitExceeded,
         [.gate "AddOrder", .transport ("/0/private/" ++ "AddOrder"),
          .sleepEv 1, .setExceeded "AddOrder"], 0 + 1) :=
  ⟨by decide, by decide,
   c4_no_retry_propagates oracleAllFail "AddOrder" 0 (by decide) (by decide)⟩

/-- Claim C3: (i) scenario — with a transport failing with the remote
rate-limit error exactly twice and then succeeding with `42`, the retryable
private call `Balance` makes exactly three transport POSTs and returns the
third call's value; (ii) every governed call (private or public) makes at
most `_num_retries + 1 = 4` transport POSTs; (iii) when every transport
answer is rate-limited, a retryable private call ends with the rate-limit
error after exactly `_num_retries + 1` POSTs. -/
theorem c3_retry_bounded_and_scenario :
    ((rlQueryPrivate oracleTwoFail true "Balance" 0).1 = .ok 42
      ∧ countTransport (rlQueryPrivate oracleTwoFail true "Balance" 0).2.1 = 3
      ∧ (rlQueryPrivate oracleTwoFail true "Balance" 0).2.2 = 3)
    ∧ (∀ {α : Type} (oracle : ℕ → RawResponse α) (creds : Bool) (m : String)
        (n : ℕ),
        countTransport (rlQueryPrivate oracle creds m n).2.1 ≤ numRetries + 1
        ∧ countTransport (rlQueryPublic oracle m n).2.1 ≤ numRetries + 1)
    ∧ (∀ {α : Type} (oracle : ℕ → RawResponse α) (m : String) (n : ℕ),
        (∀ k, "EAPI:Rate limit exceeded" ∈ (oracle k).error) →
        m ∈ API_METHODS_PRIVATE → m ∉ API_METHODS_NO_RETRY →
        (rlQueryPrivate oracle true m n).1 = .error .rateLimitExceeded
        ∧ countTransport (rlQueryPrivate oracle true m n).2.1 = numRetries + 1) := by
  refine ⟨⟨rfl, rfl, rfl⟩, ?_, ?_⟩
  · intro α oracle creds m n
    constructor
    · have h1 := countTransport_queryPrivateOnce oracle creds m n
      cases h : isRLE (queryPrivateOnce oracle creds m n).1 with
      | false =>
        simp only [rlQueryPrivate, h]
        simp [numRetries]
        omega
      | true =>
        by_cases hr : 0 < numRetries ∧ m ∉ API_METHODS_NO_RETRY
        · have h2 := countTransport_retryPriv oracle creds m numRetries 0
            (queryPrivateOnce oracle creds m n).2.2
          simp only [rlQueryPrivate, h, if_pos hr]
          simp [countTransport_append, numRetries] at h2 ⊢
          omega
        · simp only [rlQueryPrivate, h, if_neg hr]
          simp [numRetries]
          omega
    · have h1 := countTransport_queryPublicOnce oracle m n
      cases h : isRLE (queryPublicOnce oracle m n).1 with
      | false =>
        simp only [rlQueryPublic, h]
        simp [numRetries]
        omega
      | true =>
        have hc : 0 < numRetries := by norm_num [numRetries]
        have h2 := countTransport_retryPub oracle m numRetries 0
          (queryPublicOnce oracle m n).2.2
        simp only [rlQueryPublic, h, if_pos hc]
        simp [countTransport_append, numRetries] at h2 ⊢
        omega
  · intro α oracle m n hall hm hmnr
    have hq := queryPrivateOnce_allRLE oracle m n hm (hall n)
    have hr := retryPriv_allRLE oracle m hm hall numRetries 0 (n + 1)
    have hcond : 0 < numRetries ∧ m ∉ API_METHODS_NO_RETRY :=
      ⟨by norm_num [numRetries], hmnr⟩
    constructor
    · simp only [rlQueryPrivate, hq, isRLE, if_pos hcond, if_true]
      exact hr.1
    · simp only [rlQueryPrivate, hq, isRLE, if_pos hcond, if_true]
      simp [countTransport_append, countTransport]
      rw [hr.2.1]

/-- Claim C3 (witness): the bound/exhaustion part instantiated on an
always-rate-limited transport and the retryable method `Balance`. -/
theorem c3_witness :
    (∀ k, "EAPI:Rate limit exceeded" ∈ (oracleAllFail k).error)
    ∧ "Balance" ∈ API_METHODS_PRIVATE
    ∧ "Balance" ∉ API_METHODS_NO_RETRY
    ∧ (rlQueryPrivate oracleAllFail true "Balance" 0).1 =
        .error .rateLimitExceeded
    ∧ countTransport (rlQueryPrivate oracleAllFail true "Balance" 0).2.1 =
        numRetries + 1 := by
  have hall : ∀ k, "EAPI:Rate limit exceeded" ∈ (oracleAllFail k).error :=
    fun _ => List.mem_cons_self _ _
  have h := c3_retry_bounded_and_scenario.2.2 oracleAllFail "Balance" 0 hall
    (by decide) (by decide)
  exact ⟨hall, by decide, by decide, h.1, h.2⟩

/-- Claim C1 (counterexample): a retry attempt does *not* bypass the rate
gate.  With a transport that is rate-limited once and then succeeds, the
private call `Balance` produces this exact trace: after the forced
`set_exceeded`, the retry re-enters `check_call` (the `Ev.gate` event at
position 7) before its transport POST — because `super().query_private`
dispatches back to the overridden, gated `_query_raw`. -/
theorem c1_counterexample_retry_is_gated :
    rlQueryPrivate oracleOnceFail true "Balance" 0 =
      (.ok 7,
       [Ev.gate "Balance", Ev.transport "/0/private/Balance", Ev.sleepEv 1,
        Ev.setExceeded "Balance", Ev.sleepEv (2 ^ (0 + 1)),
        Ev.setExceeded "Balance", Ev.gate "Balance",
        Ev.transport "/0/private/Balance"], 2) := rfl

/-- Claim C1 (amended): on both the public and the private path, every
transport POST — the first attempt and every retry attempt alike — is
immediately preceded by a `check_call` gate consultation for the method of
its path; the "bypass the gate on retry" behavior described by the spec does
not exist in the code. -/
theorem c1_amended_every_transport_gated :
    ∀ {α : Type} (oracle : ℕ → RawResponse α) (creds : Bool) (m : String)
      (n : ℕ),
      wellGated (rlQueryPrivate oracle creds m n).2.1 = true
      ∧ wellGated (rlQueryPublic oracle m n).2.1 = true := by
  intro α oracle creds m n
  constructor
  · rcases queryPrivateOnce_shape oracle creds m n with
      ⟨htr, _, hrle⟩ | ⟨htr, _, hrle⟩ | ⟨htr, _, hres⟩
    · simp [rlQueryPrivate, hrle, htr, wellGated]
    · simp [rlQueryPrivate, hrle, htr, wellGated]
    · have hrle : isRLE (queryPrivateOnce oracle creds m n).1 = true := by
        rw [hres]; rfl
      by_cases hc : 0 < numRetries ∧ m ∉ API_METHODS_NO_RETRY
      · simp [rlQueryPrivate, hrle, hc, htr, wellGated, wellGated_retryPriv]
      · simp [rlQueryPrivate, hrle, hc, htr, wellGated]
  · rcases queryPublicOnce_shape oracle m n with
      ⟨htr, _, hrle⟩ | ⟨htr, _, hrle⟩ | ⟨htr, _, hres⟩
    · simp [rlQueryPublic, hrle, htr, wellGated]
    · simp [rlQueryPublic, hrle, htr, wellGated]
    · have hrle : isRLE (queryPublicOnce oracle m n).1 = true := by
        rw [hres]; rfl
      have hc : 0 < numRetries := by norm_num [numRetries]
      simp [rlQueryPublic, hrle, hc, htr, wellGated, wellGated_retryPub]
theorem pyTrunc_mono {q r : ℚ} (h : q ≤ r) : pyTrunc q ≤ pyTrunc r := by
  unfold pyTrunc
  split_ifs with hq hr hr
  · exact Int.ceil_mono h
  · have h1 : ⌈q⌉ ≤ (0 : ℤ) := Int.ceil_le.mpr (by exact_mod_cast le_of_lt hq)
    have h2 : (0 : ℤ) ≤ ⌊r⌋ := Int.floor_nonneg.mpr (not_lt.mp hr)
    omega
  · linarith
  · exact Int.floor_mono h

/-- Claim C9 (counterexample): the nonce `int((time() + NONCE_OFFSET) * 1000)`
is *not* strictly increasing — two wall-clock instants half a millisecond
apart produce the same nonce (truncation to milliseconds). -/
theorem c9_counterexample_nonce_not_strict :
    ((1609459200 : ℚ) < 1609459200 + 1 / 2000)
    ∧ nonceAt 1609459200 = nonceAt (1609459200 + 1 / 2000) := by
  constructor
  · norm_num
  · have h1 : nonceAt 1609459200 = 0 := by
      have : ((1609459200 : ℚ) + NONCE_OFFSET) * 1000 = 0 := by
        norm_num [NONCE_OFFSET]
      simp [nonceAt, this, pyTrunc]
    have h2 : nonceAt (1609459200 + 1 / 2000) = 0 := by
      have harg : ((1609459200 + 1 / 2000 : ℚ) + NONCE_OFFSET) * 1000 = 1 / 2 := by
        norm_num [NONCE_OFFSET]
      rw [nonceAt, harg, pyTrunc, if_neg (by norm_num)]
      rw [Int.floor_eq_zero_iff]
      constructor <;> norm_num
    rw [h1, h2]

/-- Claim C9 (amended): the nonce is non-decreasing in wall-clock time, and
strictly increasing for instants at least one millisecond apart (for times at
or after the 2021-01-01 epoch the offset makes the argument non-negative). -/
theorem c9_amended_nonce_monotone :
    ∀ t1 t2 : ℚ,
      (t1 ≤ t2 → nonceAt t1 ≤ nonceAt t2)
      ∧ (-NONCE_OFFSET ≤ t1 → t1 + 1 / 1000 ≤ t2 → nonceAt t1 < nonceAt t2) := by
  intro t1 t2
  constructor
  · intro h
    exact pyTrunc_mono
      (mul_le_mul_of_nonneg_right (add_le_add_right h _) (by norm_num))
  · intro h0 h1
    have hx1 : 0 ≤ (t1 + NONCE_OFFSET) * 1000 :=
      mul_nonneg (by linarith) (by norm_num)
    have hx2 : (t1 + NONCE_OFFSET) * 1000 + 1 ≤ (t2 + NONCE_OFFSET) * 1000 := by
      have h2 := mul_le_mul_of_nonneg_right
        (show t1 + 1 / 1000 + NONCE_OFFSET ≤ t2 + NONCE_OFFSET by linarith)
        (show (0 : ℚ) ≤ 1000 by norm_num)
      ring_nf at h2 ⊢
      linarith
    have hx2pos : 0 ≤ (t2 + NONCE_OFFSET) * 1000 := by linarith
    rw [nonceAt, nonceAt, pyTrunc, pyTrunc, if_neg (not_lt.mpr hx1),
      if_neg (not_lt.mpr hx2pos)]
    have h3 : ⌊(t1 + NONCE_OFFSET) * 1000 + 1⌋ ≤ ⌊(t2 + NONCE_OFFSET) * 1000⌋ :=
      Int.floor_mono hx2
    rw [Int.floor_add_one] at h3
    omega

/-- Claim C9 (witness): one second apart, after the 2021 epoch, the nonce
strictly increases. -/
theorem c9_witness :
    nonceAt 1609459200 ≤ nonceAt 1609459201
    ∧ nonceAt 1609459200 < nonceAt 1609459201 :=
  ⟨(c9_amended_nonce_monotone 1609459200 1609459201).1 (by norm_num),
   (c9_amended_nonce_monotone 1609459200 1609459201).2
     (by norm_num [NONCE_OFFSET]) (by norm_num)⟩

/-- Claim C10: `load_key` updates the stored credentials all-or-nothing —
when the parsed file yields both a truthy (non-`None`, non-empty) key and
secret, both are replaced; when it yields only one or neither, the stored
pair is returned unchanged; a missing file raises `NoPrivateKey` (and, the
call failing, mutates nothing). -/
theorem c10_load_key_all_or_nothing :
    (∀ (lines : List String) (st : Creds),
        truthy (parseKeyLines lines).1 = true →
        truthy (parseKeyLines lines).2 = true →
        loadKey (some lines) st =
          .ok ⟨(parseKeyLines lines).1, (parseKeyLines lines).2⟩)
    ∧ (∀ (lines : List String) (st : Creds),
        (truthy (parseKeyLines lines).1 && truthy (parseKeyLines lines).2)
          = false →
        loadKey (some lines) st = .ok st)
    ∧ (∀ st : Creds, loadKey none st = .error .noPrivateKey) := by
  refine ⟨?_, ?_, fun st => rfl⟩
  · intro lines st h1 h2
    simp [loadKey, h1, h2]
  · intro lines st h
    simp [loadKey, h]

/-- Claim C10 (witness): a file with both lines replaces both credentials; a
file with only a key line leaves the stored pair untouched. -/
theorem c10_witness :
    loadKey (some ["key = abc", "secret = xyz"]) ⟨none, none⟩ =
      .ok ⟨some "abc", some "xyz"⟩
    ∧ loadKey (some ["key = abc"]) ⟨some "o1", some "o2"⟩ =
      .ok ⟨some "o1", some "o2"⟩ := by
  constructor
  · exact (c10_load_key_all_or_nothing.1 ["key = abc", "secret = xyz"]
      ⟨none, none⟩ (by decide) (by decide)).trans rfl
  · exact c10_load_key_all_or_nothing.2.1 ["key = abc"] ⟨some "o1", some "o2"⟩
      (by decide)
